import Mathlib

/-
Shallow embedding of the spiderfire host/engine async bridge:
the `ion` promise wrapper (`src/ion/src/objects/promise.rs`), the native
function wrapper (`src/ion/src/functions/function.rs`), the unhandled-rejection
handler (`src/runtime/src/modules/handler.rs`) and the `queueMicrotask` global
(`src/runtime/src/globals/microtasks.rs`).

The embedded engine (SpiderMonkey, reached through `mozjs`) and the ion
exception / error-report modules are external to the excerpt; their operations
are modelled from the spec's collaborator contracts (spec sections 3, 6) and
are marked `Modelled from the spec:` in their doc comments.  Host-visible
side effects (the console) are modelled as a print log threaded through the
engine state.
-/

deriving instance DecidableEq for Except

/-- An engine value (the `JSVal` tagged union, modelled at the granularity the
bridge observes: undefined, null, booleans, numbers, strings and object
references by identity). -/
inductive JSVal where
  | undefined
  | null
  | boolean (b : Bool)
  | int (n : Int)
  | str (s : String)
  | obj (id : Nat)
deriving DecidableEq

/-- `JSVal::is_object`. -/
def JSVal.is_object : JSVal → Bool
  | .obj _ => true
  | _ => false

/-- `JSVal::to_object`: the object id of an object value (only meaningful when
`is_object` holds; the Rust call has undefined behaviour otherwise, modelled
with a dummy id). -/
def JSVal.to_object : JSVal → Nat
  | .obj id => id
  | _ => 0

/-- Textual form of a value, used when formatting reports. -/
def JSVal.display : JSVal → String
  | .undefined => "undefined"
  | .null => "null"
  | .boolean b => toString b
  | .int n => toString n
  | .str s => s
  | .obj id => "[object " ++ toString id ++ "]"

/-- The engine's promise state enumeration (`mozjs::jsapi::PromiseState`). -/
inductive PromiseState where
  | Pending
  | Fulfilled
  | Rejected
deriving DecidableEq

/-- A source location appearing in a captured stack. -/
structure Location where
  file : String
  line : Nat
  column : Nat
deriving DecidableEq

/-- Formats a stack location. -/
def Location.format (l : Location) : String :=
  l.file ++ ":" ++ toString l.line ++ ":" ++ toString l.column

/-- Modelled from the spec: `ErrorReport` (ion exception module, outside the
excerpt) is a host-visible snapshot of an engine exception, optionally
carrying captured stack information. -/
structure ErrorReport where
  exception : JSVal
  stack : List Location
deriving DecidableEq

/-- `ErrorReport::format`: the formatted textual form that is printed. -/
def ErrorReport.format (r : ErrorReport) : String :=
  r.exception.display ++ String.join (r.stack.map (fun l => "\n  at " ++ l.format))

/-- Outcome of invoking an abstract host/native callable through the engine:
it can succeed with a value, fail leaving a pending exception, or fail with no
retrievable exception (e.g. out-of-memory during call setup). -/
inductive CallOutcome where
  | success (v : JSVal)
  | throwFail (e : JSVal)
  | silentFail
deriving DecidableEq

/-- Behaviour of a function object known to the engine: the per-promise
resolving/rejecting functions handed to executors, an abstract native
function with a fixed call outcome, or a trampoline-wrapped host reaction
handler (identified by the captured closure's id). -/
inductive FunBehavior where
  | resolveFn (pid : Nat)
  | rejectFn (pid : Nat)
  | hostNative (outcome : CallOutcome)
  | hostReaction (h : Nat)
deriving DecidableEq

/-- An engine promise record: state, result (meaningful once settled) and the
registered reactions, each a pair of optional function-object ids
(on-fulfilled, on-rejected; `none` is the null object slot). -/
structure PromiseRecord where
  state : PromiseState
  result : JSVal
  reactions : List (Option Nat × Option Nat)
deriving DecidableEq

/-- The engine-plus-host world state threaded through every operation:
promise and function tables keyed by object id, the pending-exception
channel, the engine's current captured stack (for report construction),
the host console log, and fresh-id counters. -/
structure EngineState where
  promises : List (Nat × PromiseRecord)
  functions : List (Nat × FunBehavior)
  pendingException : Option JSVal
  stack : List Location
  printLog : List String
  nextPromiseId : Nat
  nextFunId : Nat
deriving DecidableEq

/-- Association-list lookup for the id-keyed tables. -/
def getA {β : Type} : List (Nat × β) → Nat → Option β
  | [], _ => none
  | (k, v) :: t, k' => if k = k' then some v else getA t k'

/-- Association-list update (overwrites an existing binding, else appends). -/
def setA {β : Type} : List (Nat × β) → Nat → β → List (Nat × β)
  | [], k, v => [(k, v)]
  | (k', v') :: t, k, v => if k' = k then (k, v) :: t else (k', v') :: setA t k v

/-- Modelled from the spec: the exception channel's `throw_type_error`
(collaborator contract, spec section 6) records a TypeError-kind exception as
the pending exception. -/
def throw_type_error (st : EngineState) (msg : String) : EngineState :=
  { st with pendingException := some (JSVal.str ("TypeError: " ++ msg)) }

/-- Modelled from the spec: `Error::throw` / `Exception::throw` (ion exception
module) throws a host error value into the engine's exception channel. -/
def throwException (st : EngineState) (e : JSVal) : EngineState :=
  { st with pendingException := some e }

/-- Modelled from the spec: `Exception::clear` clears the engine's
pending-exception state. -/
def Exception.clear (st : EngineState) : EngineState :=
  { st with pendingException := none }

/-- Modelled from the spec: `Exception::new` retrieves the pending exception
if any (the "retrieve pending exception if any" collaborator operation). -/
def Exception.new (st : EngineState) : Option JSVal :=
  st.pendingException

/-- Modelled from the spec: `Exception::from_value` converts a value into the
exception representation (modelled as the value itself). -/
def Exception.from_value (_st : EngineState) (v : JSVal) : JSVal :=
  v

/-- Modelled from the spec: `ErrorReport::new` builds a report snapshot from an
exception (no stack variant); building a report clears the engine's
pending-exception state. -/
def ErrorReport.new (st : EngineState) (exception : JSVal) : ErrorReport × EngineState :=
  ({ exception := exception, stack := [] }, Exception.clear st)

/-- Modelled from the spec: `ErrorReport::from_exception_with_error_stack`
builds a report carrying the engine's captured stack information. -/
def ErrorReport.from_exception_with_error_stack (st : EngineState) (exception : JSVal) :
    ErrorReport :=
  { exception := exception, stack := st.stack }

/-- Modelled from the spec: `transform_error_report_with_sourcemaps`
(runtime source-map cache, outside the excerpt) rewrites the report's
location fields in place according to the loaded source maps, modelled as a
location-rewriting parameter `sm`; a report with no mapped location is left
alone (the rewrite is a no-op there). -/
def transform_error_report_with_sourcemaps (sm : Location → Location) (r : ErrorReport) :
    ErrorReport :=
  { r with stack := r.stack.map sm }

/-- Modelled from the spec: the engine settles a promise if and only if it is
still Pending (state transitions are irreversible and exactly-once, spec
section 3); settling stores the result value. -/
def settleIfPending (st : EngineState) (pid : Nat) (s : PromiseState) (v : JSVal) :
    EngineState :=
  match getA st.promises pid with
  | some rec =>
      if rec.state = PromiseState.Pending then
        { st with promises := setA st.promises pid { rec with state := s, result := v } }
      else st
  | none => st

/-- Modelled from the spec: `mozjs ResolvePromise` fulfils a Pending promise
with the given value and reports success; on an already-settled promise it is
a no-op reported as failure (boolean false). -/
def ResolvePromise (st : EngineState) (pid : Nat) (v : JSVal) : Bool × EngineState :=
  match getA st.promises pid with
  | some rec =>
      if rec.state = PromiseState.Pending then
        (true, { st with promises := setA st.promises pid { rec with state := PromiseState.Fulfilled, result := v } })
      else (false, st)
  | none => (false, st)

/-- Modelled from the spec: `mozjs RejectPromise`, the rejection counterpart of
`ResolvePromise`. -/
def RejectPromise (st : EngineState) (pid : Nat) (v : JSVal) : Bool × EngineState :=
  match getA st.promises pid with
  | some rec =>
      if rec.state = PromiseState.Pending then
        (true, { st with promises := setA st.promises pid { rec with state := PromiseState.Rejected, result := v } })
      else (false, st)
  | none => (false, st)

/-- Modelled from the spec: `mozjs GetPromiseState` reads the promise's state
without mutating it. -/
def GetPromiseState (st : EngineState) (pid : Nat) : PromiseState :=
  match getA st.promises pid with
  | some rec => rec.state
  | none => PromiseState.Pending

/-- Modelled from the spec: `mozjs GetPromiseResult` reads the promise's result
slot without mutating it (undefined before settlement). -/
def GetPromiseResult (st : EngineState) (pid : Nat) : JSVal :=
  match getA st.promises pid with
  | some rec => rec.result
  | none => JSVal.undefined

/-- Modelled from the spec: `mozjs GetPromiseID` returns the engine-assigned
identity of the promise (its object id in this model). -/
def GetPromiseID (_st : EngineState) (pid : Nat) : Nat :=
  pid

/-- Modelled from the spec: `mozjs AddPromiseReactions` registers one reaction
record (a pair of optional handler function objects; `none` is the null
object slot) against the promise, in registration order, and never mutates
the promise's state. -/
def AddPromiseReactions (st : EngineState) (pid : Nat) (onRes onRej : Option Nat) :
    Bool × EngineState :=
  match getA st.promises pid with
  | some rec =>
      (true, { st with promises := setA st.promises pid { rec with reactions := rec.reactions ++ [(onRes, onRej)] } })
  | none => (false, st)

/-- Allocates a fresh function object with the given behaviour
(`Function::new` / trampoline synthesis, seen from the engine's side). -/
def newFunction (st : EngineState) (behavior : FunBehavior) : Nat × EngineState :=
  (st.nextFunId,
   { st with functions := setA st.functions st.nextFunId behavior, nextFunId := st.nextFunId + 1 })

/-- Modelled from the spec: `mozjs JS_CallFunction` invokes a function object:
the per-promise resolving/rejecting functions settle their promise (if still
Pending) and return undefined with success; an abstract native behaves per its
fixed outcome, a throwing failure leaving a pending exception and a silent
failure leaving the channel untouched. Returns (success flag, return value,
new state). -/
def JS_CallFunction (st : EngineState) (fid : Nat) (_this : JSVal) (args : List JSVal) :
    Bool × JSVal × EngineState :=
  match getA st.functions fid with
  | some (FunBehavior.resolveFn pid) =>
      (true, JSVal.undefined, settleIfPending st pid PromiseState.Fulfilled (args.headD JSVal.undefined))
  | some (FunBehavior.rejectFn pid) =>
      (true, JSVal.undefined, settleIfPending st pid PromiseState.Rejected (args.headD JSVal.undefined))
  | some (FunBehavior.hostNative (CallOutcome.success v)) => (true, v, st)
  | some (FunBehavior.hostNative (CallOutcome.throwFail e)) =>
      (false, JSVal.undefined, { st with pendingException := some e })
  | some (FunBehavior.hostNative CallOutcome.silentFail) => (false, JSVal.undefined, st)
  | some (FunBehavior.hostReaction _) => (true, JSVal.undefined, st)
  | none => (false, JSVal.undefined, st)

/-- `IonFunction::is_function_raw` (`JS_ObjectIsFunction`): whether the object
id denotes a function object. -/
def IonFunction.is_function_raw (st : EngineState) (oid : Nat) : Bool :=
  (getA st.functions oid).isSome

/-- `IonFunction::call` (src/ion/src/functions/function.rs lines 111-123):
invokes the function against a receiver and arguments; on success returns the
result value; on failure returns `some report` built from the retrievable
pending exception (consuming it) or `none` when no exception is retrievable. -/
def IonFunction.call (st : EngineState) (fid : Nat) (this : JSVal) (args : List JSVal) :
    Except (Option ErrorReport) JSVal × EngineState :=
  match JS_CallFunction st fid this args with
  | (true, rval, st1) => (Except.ok rval, st1)
  | (false, _, st1) =>
      match Exception.new st1 with
      | some exception =>
          match ErrorReport.new st1 exception with
          | (report, st2) => (Except.error (some report), st2)
      | none => (Except.error none, st1)

/-- `IonFunction::from_object` (function.rs lines 48-57): succeeds on a
function object; on a non-function object it throws a TypeError into the
engine and yields no function. -/
def IonFunction.from_object (st : EngineState) (oid : Nat) : Option Nat × EngineState :=
  if IonFunction.is_function_raw st oid then (some oid, st)
  else (none, throw_type_error st "Object cannot be converted to Function")

/-- `IonFunction::from_value` (function.rs lines 59-62): `assert!(val.is_object())`
then convert through `from_object`. The assertion failure is a host-side panic,
modelled as `Except.error` with the panic message (no engine exception is
thrown on that path). -/
def IonFunction.from_value (st : EngineState) (val : JSVal) :
    Except String (Option Nat × EngineState) :=
  if val.is_object then Except.ok (IonFunction.from_object st val.to_object)
  else Except.error "assertion failed: val.is_object()"

/-- `IonFunction::from_jsval` (function.rs lines 150-166, the checked
conversion): a non-object value gets a TypeError thrown into the engine and an
error result; an object value goes through `from_object`, yielding the
function on success and an error result otherwise. -/
def IonFunction.from_jsval (st : EngineState) (value : JSVal) :
    Except Unit Nat × EngineState :=
  if ¬ value.is_object then (Except.error (), throw_type_error st "Value is not an object")
  else
    match IonFunction.from_object st value.to_object with
    | (some f, st1) => (Except.ok f, st1)
    | (none, st1) => (Except.error (), st1)

/-- The host executor signature of `Promise::new_with_executor`
(`FnOnce(&Context, Function, Function) -> Result<(), Error>`): given the
context (world state) and the resolve/reject function objects, it performs
effects and returns `Ok ()` or a host error value (the `Error` is modelled by
the engine value it throws as). -/
def HostExecutor : Type :=
  EngineState → Nat → Nat → Except JSVal Unit × EngineState

/-- The native closure built inside `Promise::new_with_executor`
(promise.rs lines 50-66): unwraps the resolve/reject arguments, runs the host
executor; `Ok` yields native success (true), `Err(error)` throws the error
into the engine and yields native failure (false). -/
def executorNative (executor : HostExecutor) (st : EngineState) (rfid jfid : Nat) :
    Bool × EngineState :=
  match executor st rfid jfid with
  | (Except.ok _, st1) => (true, st1)
  | (Except.error e, st1) => (false, throwException st1 e)

/-- Modelled from the spec: `mozjs NewPromiseObject` with an executor: the
engine allocates a fresh Pending promise and its resolving/rejecting function
objects, invokes the executor synchronously during construction, and — per
the proposal's throw-during-executor handling — if the executor callback
fails with a pending exception, takes that exception and rejects the new
promise with it. Returns the promise id and the new state. -/
def NewPromiseObject (st : EngineState) (executor : EngineState → Nat → Nat → Bool × EngineState) :
    Nat × EngineState :=
  let pid := st.nextPromiseId
  let rfid := st.nextFunId
  let jfid := st.nextFunId + 1
  let st1 : EngineState :=
    { st with
      promises := setA st.promises pid
        { state := PromiseState.Pending, result := JSVal.undefined, reactions := [] },
      nextPromiseId := pid + 1,
      functions := setA (setA st.functions rfid (FunBehavior.resolveFn pid)) jfid
        (FunBehavior.rejectFn pid),
      nextFunId := jfid + 1 }
  match executor st1 rfid jfid with
  | (true, st2) => (pid, st2)
  | (false, st2) =>
      match st2.pendingException with
      | some e =>
          (pid, settleIfPending { st2 with pendingException := none } pid PromiseState.Rejected e)
      | none => (pid, st2)

/-- `Promise::new_with_executor` (promise.rs lines 45-80): wraps the host
executor as a native callable and passes it to the engine's promise
constructor; yields the rooted promise. -/
def Promise.new_with_executor (st : EngineState) (executor : HostExecutor) :
    Option Nat × EngineState :=
  match NewPromiseObject st (executorNative executor) with
  | (pid, st1) => (some pid, st1)

/-- The executor closure built inside `Promise::block_on_future`
(promise.rs lines 97-119): drives the future to completion on the calling
thread (modelled by its completed `Result`), converts the `Ok`/`Err` payload
to an engine value, calls the resolve/reject function with it, and — if that
call itself fails with `Err(Some(error))` — prints the formatted error;
the closure then returns `Ok(())`. -/
def block_on_future_executor {α ε : Type} (fres : Except ε α)
    (convO : α → JSVal) (convE : ε → JSVal) : HostExecutor :=
  fun cx resolve reject =>
    let nullv := JSVal.null
    match fres with
    | Except.ok output =>
        let value := convO output
        (match IonFunction.call cx resolve nullv [value] with
         | (Except.error (some error), cx1) =>
             (Except.ok (), { cx1 with printLog := cx1.printLog ++ [error.format] })
         | (_, cx1) => (Except.ok (), cx1))
    | Except.error e =>
        let value := convE e
        (match IonFunction.call cx reject nullv [value] with
         | (Except.error (some error), cx1) =>
             (Except.ok (), { cx1 with printLog := cx1.printLog ++ [error.format] })
         | (_, cx1) => (Except.ok (), cx1))

/-- `Promise::block_on_future` (promise.rs lines 90-120): builds a promise
whose executor drives the host future to completion synchronously and settles
the promise from its result. -/
def Promise.block_on_future {α ε : Type} (st : EngineState) (fres : Except ε α)
    (convO : α → JSVal) (convE : ε → JSVal) : Option Nat × EngineState :=
  Promise.new_with_executor st (block_on_future_executor fres convO convE)

/-- `Promise::id` (promise.rs line 140): delegates to `GetPromiseID`. -/
def Promise.id (st : EngineState) (pid : Nat) : Nat :=
  GetPromiseID st pid

/-- `Promise::state` (promise.rs line 147): delegates to `GetPromiseState`. -/
def Promise.state (st : EngineState) (pid : Nat) : PromiseState :=
  GetPromiseState st pid

/-- `Promise::result` (promise.rs line 155): delegates to `GetPromiseResult`
(the intended read; the source's own doc comment notes the real call
currently leads to a segmentation fault). -/
def Promise.result (st : EngineState) (pid : Nat) : JSVal :=
  GetPromiseResult st pid

/-- `Promise::resolve` (promise.rs lines 297-299): delegates to the engine's
`ResolvePromise`. -/
def Promise.resolve (st : EngineState) (pid : Nat) (v : JSVal) : Bool × EngineState :=
  ResolvePromise st pid v

/-- `Promise::reject` (promise.rs lines 302-304): delegates to the engine's
`RejectPromise`. -/
def Promise.reject (st : EngineState) (pid : Nat) (v : JSVal) : Bool × EngineState :=
  RejectPromise st pid v

/-- `Promise::then` (promise.rs lines 217-246): wraps the host on-resolved
handler in a trampoline-backed native function and registers it as the
fulfillment reaction, with a null object in the rejection slot. -/
def Promise.then_ (st : EngineState) (pid : Nat) (h : Nat) : Bool × EngineState :=
  match newFunction st (FunBehavior.hostReaction h) with
  | (fid, st1) => AddPromiseReactions st1 pid (some fid) none

/-- `Promise::catch` (promise.rs lines 248-277): wraps the host on-rejected
handler in a trampoline-backed native function and registers it as the
rejection reaction, with a null object in the fulfillment slot. -/
def Promise.catch_ (st : EngineState) (pid : Nat) (h : Nat) : Bool × EngineState :=
  match newFunction st (FunBehavior.hostReaction h) with
  | (fid, st1) => AddPromiseReactions st1 pid none (some fid)

/-- `Promise::add_reactions_native` (promise.rs lines 284-294): registers the
given already-constructed native callables (null object slots when absent)
with the engine's reaction-registration primitive. -/
def Promise.add_reactions_native (st : EngineState) (pid : Nat) (onRes onRej : Option Nat) :
    Bool × EngineState :=
  AddPromiseReactions st pid onRes onRej

/-- `on_rejected` (src/runtime/src/modules/handler.rs lines 14-21), the default
unhandled-rejection reaction: converts the rejection value to an exception,
builds a report with the captured error stack, applies the source-map
transformation, clears the pending-exception state, and prints the formatted
report. -/
def on_rejected (sm : Location → Location) (st : EngineState) (value : JSVal) : EngineState :=
  let exception := Exception.from_value st value
  let report := ErrorReport.from_exception_with_error_stack st exception
  let report1 := transform_error_report_with_sourcemaps sm report
  let st1 := Exception.clear st
  { st1 with printLog := st1.printLog ++ [report1.format] }

/-- A queued unit of deferred work (`runtime::event_loop::microtasks::Microtask`):
a user-scheduled callback (by function id) or an engine-internal reaction
notification. -/
inductive Microtask where
  | User (callback : Nat)
  | Internal (job : Nat)
deriving DecidableEq

/-- The host-owned FIFO microtask queue. -/
structure MicrotaskQueue where
  queue : List Microtask
deriving DecidableEq

/-- Modelled from the spec: `MicrotaskQueue::enqueue` (event-loop module,
outside the excerpt) appends in strict FIFO order. -/
def MicrotaskQueue.enqueue (q : MicrotaskQueue) (m : Microtask) : MicrotaskQueue :=
  { queue := q.queue ++ [m] }

/-- The process-wide event-loop state as `queueMicrotask` sees it: the
microtask queue is present only once initialised. -/
structure EventLoop where
  microtasks : Option MicrotaskQueue
deriving DecidableEq

/-- The host-level error type surfaced by `queueMicrotask` (`IonError`). -/
inductive IonError where
  | Error (msg : String)
deriving DecidableEq

/-- `queueMicrotask` (src/runtime/src/globals/microtasks.rs lines 17-27):
enqueues the callback as a user microtask when the process-wide queue is
initialised, and returns a host-level configuration error otherwise. -/
def queueMicrotask (el : EventLoop) (callback : Nat) : Except IonError Unit × EventLoop :=
  match el.microtasks with
  | some q =>
      (Except.ok (), { el with microtasks := some (q.enqueue (Microtask.User callback)) })
  | none =>
      (Except.error (IonError.Error "Microtask Queue has not been initialised."), el)

/-- An empty world, used to instantiate concrete scenarios. -/
def emptyState : EngineState :=
  { promises := [], functions := [], pendingException := none, stack := [],
    printLog := [], nextPromiseId := 0, nextFunId := 0 }

/-- A world holding a single Pending promise with id 0. -/
def onePendingState : EngineState :=
  { emptyState with
    promises := [(0, { state := PromiseState.Pending, result := JSVal.undefined, reactions := [] })],
    nextPromiseId := 1 }

/-- A world holding a single native function (id 0) whose invocation fails
throwing the engine value 5. -/
def throwFnState : EngineState :=
  { emptyState with
    functions := [(0, FunBehavior.hostNative (CallOutcome.throwFail (JSVal.int 5)))],
    nextFunId := 1 }

/-- A world holding three native functions: id 0 succeeds with 1, id 1 fails
throwing 2, id 2 fails silently. -/
def threeFnState : EngineState :=
  { emptyState with
    functions :=
      [(0, FunBehavior.hostNative (CallOutcome.success (JSVal.int 1))),
       (1, FunBehavior.hostNative (CallOutcome.throwFail (JSVal.int 2))),
       (2, FunBehavior.hostNative CallOutcome.silentFail)],
    nextFunId := 3 }

theorem getA_setA_eq {β : Type} (l : List (Nat × β)) (k : Nat) (v : β) :
    getA (setA l k v) k = some v := by
  induction l with
  | nil => simp [getA, setA]
  | cons hd t ih =>
      obtain ⟨k', v'⟩ := hd
      by_cases hk : k' = k
      · simp [getA, setA, hk]
      · simp [getA, setA, hk, ih]

theorem getA_setA_ne {β : Type} (l : List (Nat × β)) (k k' : Nat) (v : β) (h : k ≠ k') :
    getA (setA l k v) k' = getA l k' := by
  induction l with
  | nil => simp [getA, setA, h]
  | cons hd t ih =>
      obtain ⟨k0, v0⟩ := hd
      by_cases hk : k0 = k
      · subst hk
        simp [getA, setA, h]
      · simp [getA, setA, hk, ih]

/-- C1: future-driven promise construction (`Promise::block_on_future`) drives
the host computation to completion synchronously (its completed result feeds
the executor directly); when it returns `Ok x` the produced promise is
Fulfilled with the engine-converted value of `x`, and when it returns `Err e`
the produced promise is Rejected with the engine-converted value of `e`. -/
theorem block_on_future_settles_from_result {α ε : Type} (st : EngineState)
    (x : α) (e : ε) (convO : α → JSVal) (convE : ε → JSVal) :
    ((Promise.block_on_future st (Except.ok x) convO convE).1 = some st.nextPromiseId ∧
     Promise.state (Promise.block_on_future st (Except.ok x) convO convE).2 st.nextPromiseId =
       PromiseState.Fulfilled ∧
     Promise.result (Promise.block_on_future st (Except.ok x) convO convE).2 st.nextPromiseId =
       convO x) ∧
    ((Promise.block_on_future st (Except.error e) convO convE).1 = some st.nextPromiseId ∧
     Promise.state (Promise.block_on_future st (Except.error e) convO convE).2 st.nextPromiseId =
       PromiseState.Rejected ∧
     Promise.result (Promise.block_on_future st (Except.error e) convO convE).2 st.nextPromiseId =
       convE e) := by
  have hne : st.nextFunId + 1 ≠ st.nextFunId := Nat.succ_ne_self st.nextFunId
  constructor
  · refine ⟨?_, ?_, ?_⟩ <;>
      simp [Promise.block_on_future, Promise.new_with_executor, NewPromiseObject,
        executorNative, block_on_future_executor, IonFunction.call, JS_CallFunction,
        settleIfPending, Exception.new, Promise.state, GetPromiseState, Promise.result,
        GetPromiseResult, getA_setA_eq, getA_setA_ne, hne]
  · refine ⟨?_, ?_, ?_⟩ <;>
      simp [Promise.block_on_future, Promise.new_with_executor, NewPromiseObject,
        executorNative, block_on_future_executor, IonFunction.call, JS_CallFunction,
        settleIfPending, Exception.new, Promise.state, GetPromiseState, Promise.result,
        GetPromiseResult, getA_setA_eq, getA_setA_ne, hne]

/-- C2: once a first `resolve(P, v)` has settled a promise, any subsequent
`resolve(P, w)` or `reject(P, w)` returns the boolean failure value false and
is a no-op (the state is unchanged), and `result(P)` still yields `v`:
settlement is exactly-once. -/
theorem promise_settlement_exactly_once (st st1 : EngineState) (p : Nat) (v w : JSVal)
    (h : Promise.resolve st p v = (true, st1)) :
    Promise.resolve st1 p w = (false, st1) ∧
    Promise.reject st1 p w = (false, st1) ∧
    Promise.result st1 p = v := by
  simp only [Promise.resolve, ResolvePromise] at h
  cases hg : getA st.promises p with
  | none => simp [hg] at h
  | some rec =>
      simp only [hg] at h
      by_cases hs : rec.state = PromiseState.Pending
      · simp only [hs, if_true] at h
        injection h with h1 h2
        subst h2
        have hga := getA_setA_eq st.promises p
          ({ rec with state := PromiseState.Fulfilled, result := v })
        refine ⟨?_, ?_, ?_⟩
        · simp [Promise.resolve, ResolvePromise, hga]
        · simp [Promise.reject, RejectPromise, hga]
        · simp [Promise.result, GetPromiseResult, hga]
      · simp [hs] at h

/-- C2 witness: a concrete pending promise resolved with 1; the second resolve
and a reject both report failure and the result stays 1. -/
theorem promise_settlement_exactly_once_witness :
    Promise.resolve (Promise.resolve onePendingState 0 (JSVal.int 1)).2 0 (JSVal.int 2) =
      (false, (Promise.resolve onePendingState 0 (JSVal.int 1)).2) ∧
    Promise.reject (Promise.resolve onePendingState 0 (JSVal.int 1)).2 0 (JSVal.int 2) =
      (false, (Promise.resolve onePendingState 0 (JSVal.int 1)).2) ∧
    Promise.result (Promise.resolve onePendingState 0 (JSVal.int 1)).2 0 = JSVal.int 1 :=
  promise_settlement_exactly_once onePendingState
    (Promise.resolve onePendingState 0 (JSVal.int 1)).2 0 (JSVal.int 1) (JSVal.int 2)
    (by decide)

/-- C3: `IonFunction::call` returns `Ok` with the result value when the engine
call succeeds; on failure it returns `Err (some report)` exactly when the
engine has a retrievable pending exception — the report built from that
exception, consuming it (the resulting pending-exception channel is empty) —
and `Err none` when the call failed without a retrievable exception; the
`Err none` outcome is distinct from any success. -/
theorem ionfunction_call_error_discrimination
    (st : EngineState) (f1 f2 f3 : Nat) (v e thisv : JSVal) (args : List JSVal)
    (h1 : getA st.functions f1 = some (FunBehavior.hostNative (CallOutcome.success v)))
    (h2 : getA st.functions f2 = some (FunBehavior.hostNative (CallOutcome.throwFail e)))
    (h3 : getA st.functions f3 = some (FunBehavior.hostNative CallOutcome.silentFail))
    (hpe : st.pendingException = none) :
    IonFunction.call st f1 thisv args = (Except.ok v, st) ∧
    IonFunction.call st f2 thisv args =
      (Except.error (some { exception := e, stack := [] }),
       { st with pendingException := none }) ∧
    IonFunction.call st f3 thisv args = (Except.error none, st) ∧
    (∀ w : JSVal, (IonFunction.call st f3 thisv args).1 ≠ Except.ok w) := by
  refine ⟨?_, ?_, ?_, ?_⟩
  · simp [IonFunction.call, JS_CallFunction, h1]
  · simp [IonFunction.call, JS_CallFunction, h2, Exception.new, ErrorReport.new,
      Exception.clear]
  · simp [IonFunction.call, JS_CallFunction, h3, Exception.new, hpe]
  · intro w
    simp [IonFunction.call, JS_CallFunction, h3, Exception.new, hpe]

/-- C3 witness: three concrete native functions — a succeeding one, a throwing
one (whose pending exception is consumed into the report) and a silently
failing one. -/
theorem ionfunction_call_error_discrimination_witness :
    IonFunction.call threeFnState 0 JSVal.undefined [] = (Except.ok (JSVal.int 1), threeFnState) ∧
    IonFunction.call threeFnState 1 JSVal.undefined [] =
      (Except.error (some { exception := JSVal.int 2, stack := [] }),
       { threeFnState with pendingException := none }) ∧
    IonFunction.call threeFnState 2 JSVal.undefined [] = (Except.error none, threeFnState) ∧
    (∀ w : JSVal, (IonFunction.call threeFnState 2 JSVal.undefined []).1 ≠ Except.ok w) :=
  ionfunction_call_error_discrimination threeFnState 0 1 2 (JSVal.int 1) (JSVal.int 2)
    JSVal.undefined [] (by decide) (by decide) (by decide) (by decide)

/-- C4: in executor-driven construction (`Promise::new_with_executor`), the
executor is invoked synchronously during construction, and when the host
executor returns an error the native callback returns false after throwing
the error into the engine's exception channel; construction completes with
the promise Rejected with that error (the exception consumed by the engine's
throw-during-executor handling), not silently Fulfilled or Pending. -/
theorem new_with_executor_throws_executor_error (st : EngineState) (e : JSVal) :
    (∀ (s : EngineState) (rfid jfid : Nat),
       executorNative (fun s1 _ _ => (Except.error e, s1)) s rfid jfid =
         (false, { s with pendingException := some e })) ∧
    (Promise.new_with_executor st (fun s _ _ => (Except.error e, s))).1 = some st.nextPromiseId ∧
    Promise.state (Promise.new_with_executor st (fun s _ _ => (Except.error e, s))).2
      st.nextPromiseId = PromiseState.Rejected ∧
    Promise.result (Promise.new_with_executor st (fun s _ _ => (Except.error e, s))).2
      st.nextPromiseId = e ∧
    (Promise.new_with_executor st (fun s _ _ => (Except.error e, s))).2.pendingException =
      none := by
  refine ⟨?_, ?_, ?_, ?_, ?_⟩ <;>
    simp [executorNative, throwException, Promise.new_with_executor, NewPromiseObject,
      settleIfPending, Promise.state, GetPromiseState, Promise.result, GetPromiseResult,
      getA_setA_eq]

/-- C5: the default unhandled-rejection reaction converts the rejection value
to an exception representation, builds an error report with the captured
stack, applies the in-place source-map transformation, clears the engine's
pending-exception state, and emits the formatted report exactly once (one
line appended to the console log); it returns normally, leaving the promise
table untouched and aborting nothing. -/
theorem on_rejected_reports_once (sm : Location → Location) (st : EngineState) (v : JSVal) :
    (on_rejected sm st v).pendingException = none ∧
    (on_rejected sm st v).printLog =
      st.printLog ++ [ErrorReport.format { exception := v, stack := st.stack.map sm }] ∧
    (on_rejected sm st v).promises = st.promises := by
  simp [on_rejected, Exception.from_value, ErrorReport.from_exception_with_error_stack,
    transform_error_report_with_sourcemaps, Exception.clear]

/-- C6: `queueMicrotask` enqueues the callback (as a user microtask, in FIFO
order) and succeeds when the process-wide queue is initialised; against an
uninitialised queue it returns the reported host-level configuration error
and changes nothing — neither a silent no-op nor an engine exception. -/
theorem queueMicrotask_requires_initialised_queue (el : EventLoop) (cb : Nat) :
    (∀ q : MicrotaskQueue, el.microtasks = some q →
       queueMicrotask el cb =
         (Except.ok (), { el with microtasks := some { queue := q.queue ++ [Microtask.User cb] } })) ∧
    (el.microtasks = none →
       queueMicrotask el cb =
         (Except.error (IonError.Error "Microtask Queue has not been initialised."), el)) := by
  constructor
  · intro q hq
    simp [queueMicrotask, hq, MicrotaskQueue.enqueue]
  · intro hq
    simp [queueMicrotask, hq]

/-- C6 witness: enqueueing callback 5 on an initialised empty queue succeeds;
on an uninitialised queue it yields the configuration error. -/
theorem queueMicrotask_requires_initialised_queue_witness :
    queueMicrotask { microtasks := some { queue := [] } } 5 =
      (Except.ok (), { microtasks := some { queue := [Microtask.User 5] } }) ∧
    queueMicrotask { microtasks := none } 5 =
      (Except.error (IonError.Error "Microtask Queue has not been initialised."),
       { microtasks := none }) :=
  ⟨by
    have h := (queueMicrotask_requires_initialised_queue { microtasks := some { queue := [] } } 5).1
      { queue := [] } rfl
    simpa using h,
   (queueMicrotask_requires_initialised_queue { microtasks := none } 5).2 rfl⟩

/-- C7: the executor built by `Promise::block_on_future` is a best-effort
terminal reporting path: it always returns `Ok ()` to its caller, and when
the resolve (or reject) call made after the future completes fails with a
host-observable error carrying a report, that report is printed (appended to
the console log) and not propagated. -/
theorem block_on_future_executor_best_effort {α ε : Type}
    (convO : α → JSVal) (convE : ε → JSVal) (cx cx1 : EngineState)
    (rfid jfid : Nat) (x : α) (e : ε) (rep : ErrorReport) :
    (∀ fres : Except ε α,
       (block_on_future_executor fres convO convE cx rfid jfid).1 = Except.ok ()) ∧
    (IonFunction.call cx rfid JSVal.null [convO x] = (Except.error (some rep), cx1) →
       block_on_future_executor (Except.ok x) convO convE cx rfid jfid =
         (Except.ok (), { cx1 with printLog := cx1.printLog ++ [rep.format] })) ∧
    (IonFunction.call cx jfid JSVal.null [convE e] = (Except.error (some rep), cx1) →
       block_on_future_executor (Except.error e) convO convE cx rfid jfid =
         (Except.ok (), { cx1 with printLog := cx1.printLog ++ [rep.format] })) := by
  refine ⟨?_, ?_, ?_⟩
  · intro fres
    cases fres with
    | ok a =>
        simp only [block_on_future_executor]
        cases hc : IonFunction.call cx rfid JSVal.null [convO a] with
        | mk r cx2 =>
            cases r with
            | ok w => rfl
            | error ro => cases ro with
              | none => rfl
              | some rep1 => rfl
    | error b =>
        simp only [block_on_future_executor]
        cases hc : IonFunction.call cx jfid JSVal.null [convE b] with
        | mk r cx2 =>
            cases r with
            | ok w => rfl
            | error ro => cases ro with
              | none => rfl
              | some rep1 => rfl
  · intro h
    simp only [block_on_future_executor, h]
  · intro h
    simp only [block_on_future_executor, h]

/-- C7 witness: against a resolve/reject function whose invocation fails
throwing 5, the executor still returns `Ok ()` and the formatted report "5"
is printed, on both the Ok and the Err branch of the future. -/
theorem block_on_future_executor_best_effort_witness :
    (block_on_future_executor (Except.ok (1 : Nat)) (fun n : Nat => JSVal.int n)
        (fun n : Nat => JSVal.int n) throwFnState 0 0).1 = Except.ok () ∧
    block_on_future_executor (Except.ok (1 : Nat)) (fun n : Nat => JSVal.int n)
        (fun n : Nat => JSVal.int n) throwFnState 0 0 =
      (Except.ok (), { throwFnState with printLog := ["5"] }) ∧
    block_on_future_executor (Except.error (2 : Nat)) (fun n : Nat => JSVal.int n)
        (fun n : Nat => JSVal.int n) throwFnState 0 0 =
      (Except.ok (), { throwFnState with printLog := ["5"] }) := by
  have h := block_on_future_executor_best_effort (fun n : Nat => JSVal.int n)
    (fun n : Nat => JSVal.int n) throwFnState { throwFnState with pendingException := none }
    0 0 1 2 { exception := JSVal.int 5, stack := [] }
  refine ⟨h.1 (Except.ok 1), ?_, ?_⟩
  · exact (h.2.1 (by decide)).trans (by decide)
  · exact (h.2.2 (by decide)).trans (by decide)

/-- C8: the intended observer behaviour the claim describes, evaluated in the
model at the failing input the code bug concerns — a promise fulfilled with
42, whose `result()` should return 42 and whose `state()` should read
Fulfilled. The source's own doc comment on `Promise::result`
(promise.rs lines 153-154) records that the real call "Currently leads to a
segmentation fault", contradicting the claim's "without failing or
crashing". -/
theorem promise_result_after_fulfilment :
    Promise.result (Promise.resolve onePendingState 0 (JSVal.int 42)).2 0 = JSVal.int 42 ∧
    Promise.state (Promise.resolve onePendingState 0 (JSVal.int 42)).2 0 =
      PromiseState.Fulfilled := by
  decide

/-- C9: `IonFunction::from_value` requires an object value: on every
non-object input it fails the host-side `assert!(val.is_object())` (a panic,
modelled as the `Except.error` outcome, with no engine exception involved),
whereas the checked conversion `from_jsval` on the same input throws a
TypeError into the engine's exception channel and returns an error result. -/
theorem from_value_panics_from_jsval_throws (st : EngineState) (v : JSVal)
    (h : v.is_object = false) :
    IonFunction.from_value st v = Except.error "assertion failed: val.is_object()" ∧
    IonFunction.from_jsval st v =
      (Except.error (),
       { st with pendingException := some (JSVal.str "TypeError: Value is not an object") }) := by
  constructor
  · simp [IonFunction.from_value, h]
  · simp [IonFunction.from_jsval, throw_type_error, h]

/-- C9 witness: the non-object value 0 makes `from_value` panic and
`from_jsval` throw a TypeError into the engine. -/
theorem from_value_panics_from_jsval_throws_witness :
    IonFunction.from_value emptyState (JSVal.int 0) =
      Except.error "assertion failed: val.is_object()" ∧
    IonFunction.from_jsval emptyState (JSVal.int 0) =
      (Except.error (),
       { emptyState with pendingException := some (JSVal.str "TypeError: Value is not an object") }) :=
  from_value_panics_from_jsval_throws emptyState (JSVal.int 0) (by decide)

/-- C10: `then(cx, h)` registers the trampoline-wrapped handler only as the
fulfillment reaction with a null object in the rejection slot, `catch(cx, h)`
registers it only as the rejection reaction with a null object in the
fulfillment slot, and each equals `add_reactions_native` applied after
wrapping the handler, with the corresponding single handler present and the
other absent. -/
theorem then_catch_refine_add_reactions_native
    (st : EngineState) (pid h : Nat) (rec : PromiseRecord)
    (hg : getA st.promises pid = some rec) :
    Promise.then_ st pid h =
      Promise.add_reactions_native (newFunction st (FunBehavior.hostReaction h)).2 pid
        (some (newFunction st (FunBehavior.hostReaction h)).1) none ∧
    Promise.catch_ st pid h =
      Promise.add_reactions_native (newFunction st (FunBehavior.hostReaction h)).2 pid
        none (some (newFunction st (FunBehavior.hostReaction h)).1) ∧
    (Promise.then_ st pid h).1 = true ∧
    (Promise.catch_ st pid h).1 = true ∧
    getA (Promise.then_ st pid h).2.promises pid =
      some { rec with reactions := rec.reactions ++ [(some st.nextFunId, none)] } ∧
    getA (Promise.catch_ st pid h).2.promises pid =
      some { rec with reactions := rec.reactions ++ [(none, some st.nextFunId)] } := by
  refine ⟨rfl, rfl, ?_, ?_, ?_, ?_⟩
  · simp [Promise.then_, newFunction, AddPromiseReactions, hg]
  · simp [Promise.catch_, newFunction, AddPromiseReactions, hg]
  · simp [Promise.then_, newFunction, AddPromiseReactions, hg, getA_setA_eq]
  · simp [Promise.catch_, newFunction, AddPromiseReactions, hg, getA_setA_eq]

/-- C10 witness: on a concrete pending promise, `then` registers exactly
(handler, null) and `catch` exactly (null, handler), each agreeing with
`add_reactions_native`. -/
theorem then_catch_refine_add_reactions_native_witness :
    Promise.then_ onePendingState 0 7 =
      Promise.add_reactions_native (newFunction onePendingState (FunBehavior.hostReaction 7)).2 0
        (some (newFunction onePendingState (FunBehavior.hostReaction 7)).1) none ∧
    Promise.catch_ onePendingState 0 7 =
      Promise.add_reactions_native (newFunction onePendingState (FunBehavior.hostReaction 7)).2 0
        none (some (newFunction onePendingState (FunBehavior.hostReaction 7)).1) ∧
    (Promise.then_ onePendingState 0 7).1 = true ∧
    (Promise.catch_ onePendingState 0 7).1 = true ∧
    getA (Promise.then_ onePendingState 0 7).2.promises 0 =
      some { state := PromiseState.Pending, result := JSVal.undefined,
             reactions := [(some 0, none)] } ∧
    getA (Promise.catch_ onePendingState 0 7).2.promises 0 =
      some { state := PromiseState.Pending, result := JSVal.undefined,
             reactions := [(none, some 0)] } := by
  have h := then_catch_refine_add_reactions_native onePendingState 0 7
    { state := PromiseState.Pending, result := JSVal.undefined, reactions := [] } (by decide)
  exact ⟨h.1, h.2.1, h.2.2.1, h.2.2.2.1, by simpa using h.2.2.2.2.1, by simpa using h.2.2.2.2.2⟩
